import Mathlib

/-!
Shallow embedding of the VariadicStruct repository (`FVariadicStruct`, an
`FInstancedStruct` variant with small-buffer optimization) and proofs about it.

The container stores one value of a dynamically chosen struct type.  Type
descriptors (`UScriptStruct`) are external: the model records the observable
data the code reads from them (structure size, minimum alignment, identity,
ancestor chain) together with an abstract payload semantics (a `Nat` value,
a default value, and a serialized byte width for `SerializeItem`).

Sources embedded here:
* `FVariadicStruct::RequiresMemoryAllocation` / `TypeRequiresMemoryAllocation`
  (VariadicStruct.h) — placement of a value: inline buffer vs heap.
* `FVariadicStruct::GetMemory`, `GetTypeMemory`, `GetValuePtr` — accessors.
* `FVariadicStruct::InitializeAs(const UScriptStruct*, const uint8*)`,
  `Reset`, move constructor and move assignment (VariadicStruct.cpp).
* `FVariadicStruct::Identical`.
* `FVariadicStruct::Serialize` (loading and saving branches) and
  `FVariadicStruct::SerializeFromMismatchedTag`, over an archive modelled as a
  byte-addressed list with a cursor (`FArchive`: `Tell`/`Seek`/`operator<<`).
-/

/-- Model of a `UScriptStruct` type descriptor as observed by the container.
`id` models pointer identity (each live descriptor has a distinct id),
`supers` models the `IsChildOf` ancestor chain (own id included),
`serialSize` is the number of bytes the descriptor's `SerializeItem` produces
for a value, and `defaultValue` is the payload produced by
`InitializeStruct` / `ClearScriptStruct`. -/
structure UScriptStruct where
  id : Nat
  structureSize : Nat
  minAlignment : Nat
  serialSize : Nat
  defaultValue : Nat
  supers : List Nat
deriving DecidableEq

/-- `FVariadicStruct::BUFFER_SIZE` (VariadicStruct.h, `static inline constexpr int32 BUFFER_SIZE = 24`). -/
def BUFFER_SIZE : Nat := 24

/-- `alignof(FVariadicStruct)` as fixed by `struct alignas(16) FVariadicStruct`. -/
def CONTAINER_ALIGNMENT : Nat := 16

/-- `FVariadicStruct::RequiresMemoryAllocation` with the two compile-time
constants as parameters; mirrors the `if constexpr (BUFFER_SIZE < alignof(FVariadicStruct) * 2)`
branch that elides the alignment check. -/
def RequiresMemoryAllocationWith (bufferSize containerAlignment : Nat) (s : UScriptStruct) : Bool :=
  if bufferSize < containerAlignment * 2 then
    decide (s.structureSize > bufferSize)
  else
    decide (s.structureSize > bufferSize) || decide (s.minAlignment > containerAlignment)

/-- `FVariadicStruct::RequiresMemoryAllocation(const UScriptStruct*)` at the
repository's default constants. -/
def RequiresMemoryAllocation (s : UScriptStruct) : Bool :=
  RequiresMemoryAllocationWith BUFFER_SIZE CONTAINER_ALIGNMENT s

/-- `FVariadicStruct::TypeRequiresMemoryAllocation<T>()`:
`sizeof(T) > BUFFER_SIZE || alignof(T) > alignof(FVariadicStruct)` (the full,
never-elided compile-time check). -/
def TypeRequiresMemoryAllocation (s : UScriptStruct) : Bool :=
  decide (s.structureSize > BUFFER_SIZE) || decide (s.minAlignment > CONTAINER_ALIGNMENT)

/-- Invariants every descriptor of a real C++ type satisfies: positive size,
alignment a power of two, and size a multiple of alignment. -/
def WellFormedStruct (s : UScriptStruct) : Prop :=
  0 < s.structureSize ∧ (∃ k, s.minAlignment = 2 ^ k) ∧ s.minAlignment ∣ s.structureSize

/-- `UScriptStruct::IsChildOf`, modelled by membership of the base's identity
in the derived descriptor's ancestor chain. -/
def UScriptStruct.IsChildOf (child base : UScriptStruct) : Bool :=
  child.supers.contains base.id

/-- The container.  Invariant I1 of the code (descriptor null iff no
constructed value) is built into the representation: `value` is the active
descriptor paired with the abstract payload, or `none` when empty.  Placement
(inline buffer vs owned heap block) is never stored; it is recomputed from
the descriptor, exactly as in the source. -/
structure FVariadicStruct where
  value : Option (UScriptStruct × Nat)
deriving DecidableEq

/-- `FVariadicStruct::GetScriptStruct`. -/
def FVariadicStruct.GetScriptStruct (self : FVariadicStruct) : Option UScriptStruct :=
  self.value.map Prod.fst

/-- Abstract memory addresses returned by the accessors: the inline buffer,
the owned heap block, or the null pointer. -/
inductive MemPtr where
  | structBuffer
  | structMemory
  | null
deriving DecidableEq

/-- `FVariadicStruct::GetTypeMemory<T>()`: placement resolved from the
compile-time check alone. -/
def GetTypeMemory (t : UScriptStruct) : MemPtr :=
  if TypeRequiresMemoryAllocation t then MemPtr.structMemory else MemPtr.structBuffer

/-- `FVariadicStruct::GetMemory`:
`ScriptStruct && !RequiresMemoryAllocation(ScriptStruct) ? StructBuffer : StructMemory`.
In the empty state `StructMemory` is the null pointer (`ResetStructData`). -/
def FVariadicStruct.GetMemory (self : FVariadicStruct) : MemPtr :=
  match self.value with
  | some (s, _) =>
      if RequiresMemoryAllocation s then MemPtr.structMemory else MemPtr.structBuffer
  | none => MemPtr.null

/-- `FVariadicStruct::GetValuePtr<T, bExactType>()`: fast path on exact
descriptor identity, else (polymorphic mode only) the `IsChildOf` path through
the runtime-resolved address, else null. -/
def FVariadicStruct.GetValuePtr (self : FVariadicStruct) (t : UScriptStruct)
    (bExactType : Bool) : MemPtr :=
  if self.GetScriptStruct = some t then
    GetTypeMemory t
  else if !bExactType &&
      (match self.GetScriptStruct with
       | some s => s.IsChildOf t
       | none => false) then
    self.GetMemory
  else
    MemPtr.null

/-- `FVariadicStruct::Reset`: destroy the value (and free the heap block when
placement was heap), then `ResetStructData()`. -/
def FVariadicStruct.Reset (_self : FVariadicStruct) : FVariadicStruct := ⟨none⟩

/-- Fresh construction half of `InitializeAs`: after `Reset()`, construct a
value of the requested type (default-initialize, then `CopyScriptStruct` from
the source bytes when given). -/
def constructFresh (t : Option UScriptStruct) (src : Option Nat) : FVariadicStruct :=
  match t with
  | none => ⟨none⟩
  | some s => ⟨some (s, src.getD s.defaultValue)⟩

/-- `FVariadicStruct::InitializeAs(const UScriptStruct*, const uint8*)`:
when the container is valid and the type matches, reuse the storage
(`CopyScriptStruct` from the source, or `ClearScriptStruct` to the default);
otherwise `Reset()` and construct fresh. -/
def FVariadicStruct.InitializeAs (self : FVariadicStruct) (t : Option UScriptStruct)
    (src : Option Nat) : FVariadicStruct :=
  match self.value, t with
  | some (s, _), some t' =>
      if t' = s then ⟨some (s, src.getD s.defaultValue)⟩ else constructFresh t src
  | some _, none => constructFresh t src
  | none, _ => constructFresh t src

/-- `UScriptStruct::CompareScriptStruct`, the descriptor's deep structural
comparison of two payloads (port flags ignored by the model). -/
def CompareScriptStruct (_s : UScriptStruct) (a b : Nat) : Bool :=
  a == b

/-- `FVariadicStruct::Identical`: false unless this container holds a value
and the two descriptors are identical; then the descriptor's deep comparison. -/
def FVariadicStruct.Identical (self other : FVariadicStruct) : Bool :=
  match self.value, other.value with
  | some (s, v), some (s', v') => decide (s = s') && CompareScriptStruct s v v'
  | _, _ => false

/-- Top-level operations a move performs, recorded as a trace:
a full copy-construction through the descriptor (`InitializeAs` from the
source's memory), a proper `Reset()` of the source, a `Reset()` of the
destination, an O(1) ownership transfer of descriptor and heap pointer
(`ResetStructData`), or a raw byte copy of the inline buffer — the last is
never emitted by this code. -/
inductive MoveStep where
  | copyConstructViaDescriptor
  | resetSource
  | resetDest
  | transferOwnership
  | rawByteCopy
deriving DecidableEq

/-- `FVariadicStruct::operator=(FVariadicStruct&&)` (non-aliased case):
inline-placed source is copy-constructed through the descriptor and the source
is `Reset()`; otherwise the destination is `Reset()` and ownership of the
descriptor and heap pointer is transferred.  Returns (destination, source,
trace). -/
def moveAssign (self other : FVariadicStruct) :
    FVariadicStruct × FVariadicStruct × List MoveStep :=
  match other.value with
  | some (s, v) =>
      if RequiresMemoryAllocation s = false then
        (self.InitializeAs (some s) (some v), other.Reset,
          [MoveStep.copyConstructViaDescriptor, MoveStep.resetSource])
      else
        (⟨some (s, v)⟩, ⟨none⟩, [MoveStep.resetDest, MoveStep.transferOwnership])
  | none => (⟨none⟩, ⟨none⟩, [MoveStep.resetDest, MoveStep.transferOwnership])

/-- `FVariadicStruct::FVariadicStruct(FVariadicStruct&&)`: same branch
structure as move assignment, but the destination is freshly constructed so no
destination `Reset()` occurs. -/
def moveConstruct (other : FVariadicStruct) :
    FVariadicStruct × FVariadicStruct × List MoveStep :=
  match other.value with
  | some (s, v) =>
      if RequiresMemoryAllocation s = false then
        (FVariadicStruct.InitializeAs ⟨none⟩ (some s) (some v), other.Reset,
          [MoveStep.copyConstructViaDescriptor, MoveStep.resetSource])
      else
        (⟨some (s, v)⟩, ⟨none⟩, [MoveStep.transferOwnership])
  | none => (⟨none⟩, ⟨none⟩, [MoveStep.transferOwnership])

/-- Model of `FArchive` for binary (non-text) persistence: a byte-addressed
memory (one `Nat` per byte) and a cursor (`Tell`).  Writing past the end
extends the memory; writing inside overwrites in place (`Seek` + `operator<<`
is how the code patches the length field). -/
structure Archive where
  mem : List Nat
  pos : Nat
deriving DecidableEq

/-- `FArchive::Seek`. -/
def seekAr (ar : Archive) (p : Nat) : Archive :=
  { ar with pos := p }

/-- Read `n` bytes at the cursor and advance it. -/
def readBytes (ar : Archive) (n : Nat) : List Nat × Archive :=
  ((ar.mem.drop ar.pos).take n, { ar with pos := ar.pos + n })

/-- Write the given bytes at the cursor, overwriting in place and
zero-extending when the cursor is past the end, then advance the cursor. -/
def writeBytes (ar : Archive) (bs : List Nat) : Archive :=
  { mem := ar.mem.take ar.pos ++ List.replicate (ar.pos - ar.mem.length) 0 ++ bs
      ++ ar.mem.drop (ar.pos + bs.length),
    pos := ar.pos + bs.length }

/-- Little-endian base-256 encoding of a value into exactly `n` bytes; this is
the model of what a descriptor's `SerializeItem` writes for a payload. -/
def encodePayload : Nat → Nat → List Nat
  | 0, _ => []
  | n + 1, v => v % 256 :: encodePayload n (v / 256)

/-- Little-endian base-256 decoding; the model of what a descriptor's
`SerializeItem` reconstructs from the payload bytes. -/
def decodePayload : List Nat → Nat
  | [] => 0
  | b :: bs => b + 256 * decodePayload bs

/-- `Ar << int32`: four bytes, two's-complement wrap. -/
def encodeInt32 (v : Int) : List Nat :=
  encodePayload 4 (v % (2 ^ 32)).toNat

/-- Reading an `int32` back from four bytes. -/
def decodeInt32 (bs : List Nat) : Int :=
  let w := decodePayload bs
  if w < 2 ^ 31 then (w : Int) else (w : Int) - 2 ^ 32

/-- Width of a serialized `UScriptStruct*` object reference in the model. -/
def TYPEREF_SIZE : Nat := 8

/-- `Ar << ScriptStruct` when saving: a fixed-width reference naming the
descriptor's identity (zero for the null descriptor). -/
def encodeTypeRef (t : Option UScriptStruct) : List Nat :=
  encodePayload TYPEREF_SIZE
    (match t with
     | none => 0
     | some s => s.id + 1)

/-- `Ar << SerializedScriptStruct` when loading: resolve the reference against
the registry of currently existing descriptors; an unknown or null reference
resolves to the null descriptor. -/
def resolveTypeRef (registry : List UScriptStruct) (bs : List Nat) : Option UScriptStruct :=
  let w := decodePayload bs
  if w = 0 then none else registry.find? (fun s => s.id + 1 == w)

/-- Diagnostics the serializer can emit. -/
inductive SerializeLog where
  | defaultsMismatch
  | unresolvedTypeSkip
deriving DecidableEq

/-- `FConstStructView`: a non-owning (type, memory) pair used as serialization
defaults. -/
structure FConstStructView where
  viewStruct : Option UScriptStruct
  viewMemory : Option Nat
deriving DecidableEq

/-- Tail of the loading branch of `FVariadicStruct::Serialize` after the
defaults-mismatch early return: re-initialize when defaults were supplied or
the type changed, then either `SerializeItem` into the active memory, or — if
the memory is null (type unresolved) and the recorded size is positive — warn
and step over the payload. -/
def serializeLoadBody (self : FVariadicStruct) (ar : Archive)
    (serialized : Option UScriptStruct) (serialSize : Int)
    (defaultsMem : Option Nat) (hasDefaults : Bool) :
    FVariadicStruct × Archive × Bool × List SerializeLog :=
  let self1 :=
    if hasDefaults || decide (self.GetScriptStruct ≠ serialized) then
      self.InitializeAs serialized defaultsMem
    else self
  match self1.value with
  | some (s, _) =>
      let r := readBytes ar s.serialSize
      (⟨some (s, decodePayload r.1)⟩, r.2, true, [])
  | none =>
      if serialSize > 0 then
        (self1, seekAr ar ((ar.pos : Int) + serialSize).toNat, true,
          [SerializeLog.unresolvedTypeSkip])
      else
        (self1, ar, true, [])

/-- Loading branch of `FVariadicStruct::Serialize(FArchive&, const FConstStructView*)`:
read the descriptor reference and the payload size; if defaults are supplied
with a different type, re-initialize from the defaults and skip the payload;
otherwise fall through to `serializeLoadBody`.  Returns (container, archive,
result, diagnostics). -/
def Serialize_load (self : FVariadicStruct) (ar : Archive)
    (registry : List UScriptStruct) (structDefaults : Option FConstStructView) :
    FVariadicStruct × Archive × Bool × List SerializeLog :=
  let r1 := readBytes ar TYPEREF_SIZE
  let serialized := resolveTypeRef registry r1.1
  let r2 := readBytes r1.2 4
  let serialSize := decodeInt32 r2.1
  match structDefaults with
  | some d =>
      if d.viewStruct ≠ serialized then
        (self.InitializeAs d.viewStruct d.viewMemory,
          seekAr r2.2 ((r2.2.pos : Int) + serialSize).toNat, true,
          [SerializeLog.defaultsMismatch])
      else
        serializeLoadBody self r2.2 serialized serialSize d.viewMemory true
  | none => serializeLoadBody self r2.2 serialized serialSize none false

/-- The payload bytes the container's descriptor writes for the current value
(empty when the container holds no value and `SerializeItem` is skipped). -/
def payloadBytes (self : FVariadicStruct) : List Nat :=
  match self.value with
  | some (s, v) => encodePayload s.serialSize v
  | none => []

/-- Frame writing of the saving branch of `FVariadicStruct::Serialize`:
descriptor reference, the `int32` size placeholder written as 0, the payload,
then seek back to patch the placeholder with `FinalOffset - InitialOffset` and
seek forward to resume. -/
def serializeSaveFrame (self1 : FVariadicStruct) (ar : Archive) : Archive :=
  let ar1 := writeBytes ar (encodeTypeRef self1.GetScriptStruct)
  let sizeOffset := ar1.pos
  let ar2 := writeBytes ar1 (encodeInt32 0)
  let initialOffset := ar2.pos
  let ar3 := writeBytes ar2 (payloadBytes self1)
  let finalOffset := ar3.pos
  let serialSize : Int := (finalOffset : Int) - (initialOffset : Int)
  let ar4 := writeBytes (seekAr ar3 sizeOffset) (encodeInt32 serialSize)
  seekAr ar4 finalOffset

/-- Saving branch of `FVariadicStruct::Serialize(FArchive&, const FConstStructView*)`:
if defaults are supplied with a different type, the container itself is
re-initialized from the defaults first; then the frame is written. -/
def Serialize_save (self : FVariadicStruct) (ar : Archive)
    (structDefaults : Option FConstStructView) :
    FVariadicStruct × Archive × Bool :=
  let self1 :=
    match structDefaults with
    | some d =>
        if d.viewStruct ≠ self.GetScriptStruct then
          self.InitializeAs d.viewStruct d.viewMemory
        else self
    | none => self
  (self1, serializeSaveFrame self1 ar, true)

/-- `0xABABABAB`, the magic constant of the legacy editor sub-header. -/
def LegacyEditorHeader : Nat := 0xABABABAB

/-- Legacy sub-header parsing inside `SerializeFromMismatchedTag`: read a
4-byte word; if it is not the legacy magic, seek back to where it started;
then read the 1-byte version. -/
def readLegacySubHeader (ar : Archive) : Archive :=
  let headerOffset := ar.pos
  let r := readBytes ar 4
  let header := decodePayload r.1
  let ar2 := if header = LegacyEditorHeader then r.2 else seekAr r.2 headerOffset
  (readBytes ar2 1).2

/-- Common descriptor + length + payload reading logic inside
`SerializeFromMismatchedTag` (no defaults; re-initialize only on type change,
before the size is read). -/
def mismatchedTagBody (self : FVariadicStruct) (ar : Archive)
    (registry : List UScriptStruct) :
    FVariadicStruct × Archive × List SerializeLog :=
  let r1 := readBytes ar TYPEREF_SIZE
  let serialized := resolveTypeRef registry r1.1
  let self1 :=
    if self.GetScriptStruct ≠ serialized then self.InitializeAs serialized none
    else self
  let r2 := readBytes r1.2 4
  let serialSize := decodeInt32 r2.1
  match self1.value with
  | some (s, _) =>
      let r3 := readBytes r2.2 s.serialSize
      (⟨some (s, decodePayload r3.1)⟩, r3.2, [])
  | none =>
      if serialSize > 0 then
        (self1, seekAr r2.2 ((r2.2.pos : Int) + serialSize).toNat,
          [SerializeLog.unresolvedTypeSkip])
      else
        (self1, r2.2, [])

/-- `FVariadicStruct::SerializeFromMismatchedTag`: accept only the
`InstancedStruct` tag, require the archive's `FInstancedStruct` custom version
to be exactly 0 (`!ensureMsgf(Ar.CustomVer(InstancedStructGuid) == 0) → return false`)
and a binary format; parse the legacy sub-header when the custom version is
negative; then run the common body.  Returns (result, container, archive,
diagnostics). -/
def SerializeFromMismatchedTag (self : FVariadicStruct) (ar : Archive)
    (registry : List UScriptStruct) (tagIsInstancedStruct : Bool)
    (customVer : Int) (isTextFormat : Bool) :
    Bool × FVariadicStruct × Archive × List SerializeLog :=
  if tagIsInstancedStruct = false then (false, self, ar, [])
  else if decide (customVer = 0) = false then (false, self, ar, [])
  else if isTextFormat then (false, self, ar, [])
  else
    let ar1 := if customVer < 0 then readLegacySubHeader ar else ar
    let r := mismatchedTagBody self ar1 registry
    (true, r.1, r.2.1, r.2.2)

theorem encodePayload_length (n v : Nat) : (encodePayload n v).length = n := by
  induction n generalizing v with
  | zero => rfl
  | succ n ih => simp [encodePayload, ih]

theorem decodePayload_encodePayload (n v : Nat) :
    decodePayload (encodePayload n v) = v % 256 ^ n := by
  induction n generalizing v with
  | zero => simp [encodePayload, decodePayload, Nat.mod_one]
  | succ n ih =>
      rw [encodePayload, decodePayload, ih, pow_succ, mul_comm (256 ^ n) 256, Nat.mod_mul]

theorem decodePayload_encodePayload_of_lt (n v : Nat) (h : v < 256 ^ n) :
    decodePayload (encodePayload n v) = v := by
  rw [decodePayload_encodePayload, Nat.mod_eq_of_lt h]

theorem encodeInt32_length (v : Int) : (encodeInt32 v).length = 4 :=
  encodePayload_length 4 _

theorem encodeInt32_ofNat (n : Nat) (h : n < 2 ^ 32) :
    encodeInt32 (n : Int) = encodePayload 4 n := by
  unfold encodeInt32
  congr 1
  have h1 : ((n : Int) % 2 ^ 32) = ((n % 2 ^ 32 : Nat) : Int) := by push_cast; rfl
  rw [h1, Nat.mod_eq_of_lt h, Int.toNat_ofNat]

theorem decodeInt32_encodeInt32_ofNat (n : Nat) (h : n < 2 ^ 31) :
    decodeInt32 (encodeInt32 (n : Int)) = (n : Int) := by
  have h32 : n < 2 ^ 32 := lt_of_lt_of_le h (by norm_num)
  have h4 : n < 256 ^ 4 := lt_of_lt_of_le h32 (by norm_num)
  rw [encodeInt32_ofNat n h32]
  unfold decodeInt32
  rw [decodePayload_encodePayload_of_lt 4 n h4]
  simpa using h

theorem encodeTypeRef_length (t : Option UScriptStruct) :
    (encodeTypeRef t).length = TYPEREF_SIZE :=
  encodePayload_length _ _

theorem resolveTypeRef_null (registry : List UScriptStruct) :
    resolveTypeRef registry (encodeTypeRef none) = none := by
  unfold resolveTypeRef encodeTypeRef
  rw [decodePayload_encodePayload_of_lt _ 0 (by norm_num)]
  rfl

theorem resolveTypeRef_some (registry : List UScriptStruct) (s : UScriptStruct)
    (hid : s.id + 1 < 256 ^ TYPEREF_SIZE)
    (hreg : registry.find? (fun x => x.id + 1 == s.id + 1) = some s) :
    resolveTypeRef registry (encodeTypeRef (some s)) = some s := by
  unfold resolveTypeRef encodeTypeRef
  rw [decodePayload_encodePayload_of_lt _ _ hid]
  simp only [Nat.succ_ne_zero, if_neg (Nat.succ_ne_zero s.id)]
  exact hreg

theorem readBytes_at (mem : List Nat) (p n : Nat) (bs post : List Nat)
    (hsplit : mem.drop p = bs ++ post) (hn : bs.length = n) :
    readBytes ⟨mem, p⟩ n = (bs, ⟨mem, p + n⟩) := by
  unfold readBytes
  simp only [hsplit, ← hn, List.take_left]

theorem drop_shift (mem bs post : List Nat) (p n : Nat)
    (h : mem.drop p = bs ++ post) (hn : bs.length = n) :
    mem.drop (p + n) = post := by
  rw [← List.drop_drop, h, ← hn, List.drop_left]

theorem writeBytes_append (ar : Archive) (bs : List Nat) (h : ar.pos = ar.mem.length) :
    writeBytes ar bs = ⟨ar.mem ++ bs, ar.pos + bs.length⟩ := by
  unfold writeBytes
  rw [h]
  simp [List.drop_eq_nil_of_le]

theorem writeBytes_patch (m0 old tail new : List Nat) (h : old.length = new.length) :
    writeBytes ⟨m0 ++ old ++ tail, m0.length⟩ new =
      ⟨m0 ++ new ++ tail, m0.length + new.length⟩ := by
  have htake : (m0 ++ (old ++ tail)).take m0.length = m0 := List.take_left m0 _
  have hlen : m0.length ≤ (m0 ++ (old ++ tail)).length := by
    simp
  have hdrop : (m0 ++ (old ++ tail)).drop (m0.length + new.length) = tail := by
    rw [← List.append_assoc, ← h, ← List.length_append m0 old]
    exact List.drop_left (m0 ++ old) tail
  unfold writeBytes
  simp only [List.append_assoc] at htake hdrop ⊢
  rw [htake, hdrop, Nat.sub_eq_zero_of_le hlen]
  simp

theorem pow_two_gt_sixteen {a : Nat} (hk : ∃ k, a = 2 ^ k) (ha : 16 < a) : 32 ≤ a := by
  obtain ⟨k, rfl⟩ := hk
  have hk4 : 4 < k := by
    by_contra hc
    push_neg at hc
    have : (2 : Nat) ^ k ≤ 2 ^ 4 := Nat.pow_le_pow_right (by norm_num) hc
    omega
  calc (32 : Nat) = 2 ^ 5 := by norm_num
    _ ≤ 2 ^ k := Nat.pow_le_pow_right (by norm_num) hk4

theorem wellFormed_align_gt_implies_size_gt (s : UScriptStruct) (h : WellFormedStruct s)
    (ha : CONTAINER_ALIGNMENT < s.minAlignment) : BUFFER_SIZE < s.structureSize := by
  obtain ⟨hpos, hk, hdvd⟩ := h
  have h32 : 32 ≤ s.minAlignment := pow_two_gt_sixteen hk ha
  have hsz : s.minAlignment ≤ s.structureSize := Nat.le_of_dvd hpos hdvd
  unfold BUFFER_SIZE
  omega

/-- C1: for every well-formed type descriptor, both the runtime placement
check (`RequiresMemoryAllocation`, which with the default constants elides
the alignment comparison) and the compile-time check
(`TypeRequiresMemoryAllocation`) report heap placement exactly when the size
exceeds `BUFFER_SIZE` or the alignment exceeds `CONTAINER_ALIGNMENT`;
otherwise the value is placed inline. -/
theorem requiresMemoryAllocation_iff_heap (s : UScriptStruct) (h : WellFormedStruct s) :
    (RequiresMemoryAllocation s = true ↔
      (BUFFER_SIZE < s.structureSize ∨ CONTAINER_ALIGNMENT < s.minAlignment)) ∧
    (TypeRequiresMemoryAllocation s = true ↔
      (BUFFER_SIZE < s.structureSize ∨ CONTAINER_ALIGNMENT < s.minAlignment)) := by
  constructor
  · unfold RequiresMemoryAllocation RequiresMemoryAllocationWith
    rw [if_pos (by norm_num [BUFFER_SIZE, CONTAINER_ALIGNMENT])]
    simp only [decide_eq_true_eq, gt_iff_lt]
    constructor
    · exact Or.inl
    · rintro (h1 | h1)
      · exact h1
      · exact wellFormed_align_gt_implies_size_gt s h h1
  · unfold TypeRequiresMemoryAllocation
    simp [gt_iff_lt]

theorem requiresMemoryAllocation_iff_heap_witness :
    WellFormedStruct ⟨0, 32, 32, 4, 0, [0]⟩ ∧
      (RequiresMemoryAllocation ⟨0, 32, 32, 4, 0, [0]⟩ = true ↔
        (BUFFER_SIZE < (32 : Nat) ∨ CONTAINER_ALIGNMENT < (32 : Nat))) := by
  have hwf : WellFormedStruct ⟨0, 32, 32, 4, 0, [0]⟩ :=
    ⟨by norm_num, ⟨5, by norm_num⟩, by norm_num⟩
  exact ⟨hwf, (requiresMemoryAllocation_iff_heap ⟨0, 32, 32, 4, 0, [0]⟩ hwf).1⟩

/-- C2 counterexample: with `BUFFER_SIZE = 32` and `CONTAINER_ALIGNMENT = 16`
(so `BUFFER_SIZE ≥ 2 × CONTAINER_ALIGNMENT`, the condition the spec claims
makes the alignment term redundant), the well-formed descriptor of size 32 and
alignment 32 has alignment above the container alignment yet size not above
the buffer, so the size-only check disagrees with the full check: the
equivalence claimed for `BUFFER_SIZE ≥ 2 × CONTAINER_ALIGNMENT` fails. -/
theorem sizeOnlyCheck_counterexample :
    2 * 16 ≤ (32 : Nat) ∧
    WellFormedStruct ⟨0, 32, 32, 4, 0, [0]⟩ ∧
    CONTAINER_ALIGNMENT < (UScriptStruct.mk 0 32 32 4 0 [0]).minAlignment ∧
    ¬ ((32 : Nat) < (UScriptStruct.mk 0 32 32 4 0 [0]).structureSize) ∧
    RequiresMemoryAllocationWith 32 16 ⟨0, 32, 32, 4, 0, [0]⟩ = true ∧
    decide ((UScriptStruct.mk 0 32 32 4 0 [0]).structureSize > 32) = false := by
  refine ⟨by norm_num, ⟨by norm_num, ⟨5, by norm_num⟩, by norm_num⟩, ?_, by norm_num, ?_, ?_⟩
  · norm_num [CONTAINER_ALIGNMENT]
  · rfl
  · rfl

/-- C2 amended: the size-only placement check coincides with the full
size-or-alignment check for well-formed descriptors exactly under the
condition the code actually uses, `BUFFER_SIZE < 2 × alignment` (with the
container alignment a power of two); with the defaults `24 < 2 × 16`, so
`RequiresMemoryAllocation` is the size-only check. -/
theorem sizeOnlyCheck_equiv_amended (bufferSize containerAlignment k : Nat)
    (s : UScriptStruct) (hA : containerAlignment = 2 ^ k)
    (hB : bufferSize < 2 * containerAlignment) (hwf : WellFormedStruct s) :
    RequiresMemoryAllocationWith bufferSize containerAlignment s =
      (decide (s.structureSize > bufferSize) || decide (s.minAlignment > containerAlignment)) ∧
    RequiresMemoryAllocation s = decide (s.structureSize > BUFFER_SIZE) := by
  obtain ⟨hpos, ⟨j, hj⟩, hdvd⟩ := hwf
  constructor
  · unfold RequiresMemoryAllocationWith
    rw [if_pos (by omega)]
    by_cases hal : containerAlignment < s.minAlignment
    · have hjk : k < j := by
        by_contra hc
        push_neg at hc
        have : (2 : Nat) ^ j ≤ 2 ^ k := Nat.pow_le_pow_right (by norm_num) hc
        omega
      have h2a : 2 * containerAlignment ≤ s.minAlignment := by
        rw [hA, hj]
        calc 2 * 2 ^ k = 2 ^ (k + 1) := by ring
          _ ≤ 2 ^ j := Nat.pow_le_pow_right (by norm_num) hjk
      have hsz : s.minAlignment ≤ s.structureSize := Nat.le_of_dvd hpos hdvd
      have hgt : bufferSize < s.structureSize := by omega
      simp [hgt, hal]
    · simp [hal]
  · unfold RequiresMemoryAllocation RequiresMemoryAllocationWith
    rw [if_pos (by norm_num [BUFFER_SIZE, CONTAINER_ALIGNMENT])]

theorem sizeOnlyCheck_equiv_amended_witness :
    (16 : Nat) = 2 ^ 4 ∧ (24 : Nat) < 2 * 16 ∧ WellFormedStruct ⟨1, 8, 8, 2, 0, [1]⟩ ∧
    RequiresMemoryAllocationWith 24 16 ⟨1, 8, 8, 2, 0, [1]⟩ =
      (decide ((UScriptStruct.mk 1 8 8 2 0 [1]).structureSize > 24) ||
        decide ((UScriptStruct.mk 1 8 8 2 0 [1]).minAlignment > 16)) := by
  have hwf : WellFormedStruct ⟨1, 8, 8, 2, 0, [1]⟩ :=
    ⟨by norm_num, ⟨3, by norm_num⟩, by norm_num⟩
  exact ⟨by norm_num, by norm_num, hwf,
    (sizeOnlyCheck_equiv_amended 24 16 4 ⟨1, 8, 8, 2, 0, [1]⟩ (by norm_num) (by norm_num) hwf).1⟩

theorem initializeAs_some_src (self : FVariadicStruct) (s : UScriptStruct) (v : Nat) :
    self.InitializeAs (some s) (some v) = ⟨some (s, v)⟩ := by
  unfold FVariadicStruct.InitializeAs
  match h : self.value with
  | some (t, w) =>
      by_cases hts : s = t
      · subst hts
        simp [Option.getD]
      · simp [hts, constructFresh, Option.getD]
  | none => simp [constructFresh, Option.getD]

theorem initializeAs_none (self : FVariadicStruct) (src : Option Nat) :
    self.InitializeAs none src = ⟨none⟩ := by
  unfold FVariadicStruct.InitializeAs
  match h : self.value with
  | some (t, w) => simp [constructFresh]
  | none => simp [constructFresh]

theorem getScriptStruct_initializeAs (self : FVariadicStruct) (t : Option UScriptStruct)
    (src : Option Nat) : (self.InitializeAs t src).GetScriptStruct = t := by
  unfold FVariadicStruct.InitializeAs FVariadicStruct.GetScriptStruct
  match h : self.value, t with
  | some (s, w), some t' =>
      by_cases hts : t' = s
      · simp [hts]
      · simp [hts, constructFresh]
  | some (s, w), none => simp [constructFresh]
  | none, some t' => simp [constructFresh]
  | none, none => simp [constructFresh]

/-- C3: moving from a non-empty, inline-placed container leaves the source
empty, puts into the destination a value `Identical` to what the source held
before the move, and performs exactly a full copy-construction through the
descriptor followed by a proper `Reset()` of the source — never a raw byte
transfer.  The same holds for the move constructor. -/
theorem moveAssign_inline_spec (b a : FVariadicStruct) (s : UScriptStruct) (v : Nat)
    (ha : a.value = some (s, v)) (hinl : RequiresMemoryAllocation s = false) :
    (moveAssign b a).1.value = some (s, v) ∧
    (moveAssign b a).1.Identical a = true ∧
    (moveAssign b a).2.1.value = none ∧
    (moveAssign b a).2.2 = [MoveStep.copyConstructViaDescriptor, MoveStep.resetSource] ∧
    MoveStep.rawByteCopy ∉ (moveAssign b a).2.2 ∧
    (moveConstruct a).1.value = some (s, v) ∧
    (moveConstruct a).2.1.value = none ∧
    (moveConstruct a).2.2 = [MoveStep.copyConstructViaDescriptor, MoveStep.resetSource] ∧
    MoveStep.rawByteCopy ∉ (moveConstruct a).2.2 := by
  have hma : moveAssign b a =
      (b.InitializeAs (some s) (some v), a.Reset,
        [MoveStep.copyConstructViaDescriptor, MoveStep.resetSource]) := by
    unfold moveAssign
    rw [ha]
    simp [hinl]
  have hmc : moveConstruct a =
      (FVariadicStruct.InitializeAs ⟨none⟩ (some s) (some v), a.Reset,
        [MoveStep.copyConstructViaDescriptor, MoveStep.resetSource]) := by
    unfold moveConstruct
    rw [ha]
    simp [hinl]
  rw [hma, hmc, initializeAs_some_src, initializeAs_some_src]
  refine ⟨rfl, ?_, rfl, rfl, by simp, rfl, rfl, rfl, by simp⟩
  unfold FVariadicStruct.Identical
  rw [ha]
  simp [CompareScriptStruct]

theorem moveAssign_inline_spec_witness :
    (FVariadicStruct.mk (some (⟨3, 8, 8, 1, 0, [3]⟩, 7))).value = some (⟨3, 8, 8, 1, 0, [3]⟩, 7) ∧
    RequiresMemoryAllocation ⟨3, 8, 8, 1, 0, [3]⟩ = false ∧
    (moveAssign ⟨none⟩ ⟨some (⟨3, 8, 8, 1, 0, [3]⟩, 7)⟩).1.value = some (⟨3, 8, 8, 1, 0, [3]⟩, 7) ∧
    (moveAssign ⟨none⟩ ⟨some (⟨3, 8, 8, 1, 0, [3]⟩, 7)⟩).2.1.value = none := by
  have h := moveAssign_inline_spec ⟨none⟩ ⟨some (⟨3, 8, 8, 1, 0, [3]⟩, 7)⟩
    ⟨3, 8, 8, 1, 0, [3]⟩ 7 rfl (by decide)
  exact ⟨rfl, by decide, h.1, h.2.2.1⟩

/-- C7: `Identical` is true exactly when both containers hold a value, the
two descriptors are the same descriptor, and the descriptor's deep comparison
of the payloads succeeds; in particular two empty containers are not
`Identical`, comparison against an empty container is false, and holding
values of different concrete types (subtype-related or not) is false. -/
theorem identical_iff_spec :
    (∀ a b : FVariadicStruct,
      a.Identical b = true ↔
        ∃ s v w, a.value = some (s, v) ∧ b.value = some (s, w) ∧
          CompareScriptStruct s v w = true) ∧
    FVariadicStruct.Identical ⟨none⟩ ⟨none⟩ = false := by
  constructor
  · intro a b
    unfold FVariadicStruct.Identical
    match ha : a.value, hb : b.value with
    | some (s, v), some (s', v') =>
        simp only [Bool.and_eq_true, decide_eq_true_eq]
        constructor
        · rintro ⟨rfl, hc⟩
          exact ⟨s, v, v', rfl, rfl, hc⟩
        · rintro ⟨t, x, y, hx, hy, hc⟩
          cases hx
          cases hy
          exact ⟨rfl, hc⟩
    | some (s, v), none =>
        simp only [Bool.false_eq_true, false_iff]
        rintro ⟨t, x, y, hx, hy, hc⟩
        cases hy
    | none, _ =>
        simp only [Bool.false_eq_true, false_iff]
        rintro ⟨t, x, y, hx, hy, hc⟩
        cases hx
  · rfl

/-- C9: on a container holding a value of derived type `D`, accessed as a
strict base `B` of `D`, the polymorphic accessor returns the (non-null)
address of the stored value while the exact-mode accessor returns null; and
on an empty container every typed access, in either mode, returns null. -/
theorem getValuePtr_exact_vs_poly (c : FVariadicStruct) (d b : UScriptStruct) (v : Nat)
    (hc : c.value = some (d, v)) (hchild : d.IsChildOf b = true) (hne : d ≠ b) :
    c.GetValuePtr b false = c.GetMemory ∧
    c.GetMemory ≠ MemPtr.null ∧
    c.GetValuePtr b true = MemPtr.null ∧
    (∀ (t : UScriptStruct) (bExactType : Bool),
      FVariadicStruct.GetValuePtr ⟨none⟩ t bExactType = MemPtr.null) := by
  have hss : c.GetScriptStruct = some d := by
    unfold FVariadicStruct.GetScriptStruct
    rw [hc]
    rfl
  refine ⟨?_, ?_, ?_, ?_⟩
  · unfold FVariadicStruct.GetValuePtr
    rw [hss]
    simp [hne, hchild]
  · unfold FVariadicStruct.GetMemory
    rw [hc]
    by_cases hr : RequiresMemoryAllocation d <;> simp [hr]
  · unfold FVariadicStruct.GetValuePtr
    rw [hss]
    simp [hne]
  · intro t bExactType
    unfold FVariadicStruct.GetValuePtr FVariadicStruct.GetScriptStruct
    simp

theorem getValuePtr_exact_vs_poly_witness :
    (FVariadicStruct.mk (some (⟨5, 16, 8, 2, 0, [5, 4]⟩, 9))).value
        = some (⟨5, 16, 8, 2, 0, [5, 4]⟩, 9) ∧
    UScriptStruct.IsChildOf ⟨5, 16, 8, 2, 0, [5, 4]⟩ ⟨4, 12, 4, 2, 0, [4]⟩ = true ∧
    (FVariadicStruct.mk (some (⟨5, 16, 8, 2, 0, [5, 4]⟩, 9))).GetValuePtr
        ⟨4, 12, 4, 2, 0, [4]⟩ true = MemPtr.null := by
  have h := getValuePtr_exact_vs_poly ⟨some (⟨5, 16, 8, 2, 0, [5, 4]⟩, 9)⟩
    ⟨5, 16, 8, 2, 0, [5, 4]⟩ ⟨4, 12, 4, 2, 0, [4]⟩ 9 rfl (by decide) (by decide)
  exact ⟨rfl, by decide, h.2.2.1⟩

theorem serializeSaveFrame_spec (self1 : FVariadicStruct) (ar : Archive)
    (h : ar.pos = ar.mem.length) :
    serializeSaveFrame self1 ar =
      ⟨ar.mem ++ encodeTypeRef self1.GetScriptStruct
          ++ encodeInt32 ((payloadBytes self1).length : Int) ++ payloadBytes self1,
        ar.pos + TYPEREF_SIZE + 4 + (payloadBytes self1).length⟩ := by
  have hRlen : (encodeTypeRef self1.GetScriptStruct).length = TYPEREF_SIZE :=
    encodeTypeRef_length _
  have h1 : writeBytes ar (encodeTypeRef self1.GetScriptStruct) =
      ⟨ar.mem ++ encodeTypeRef self1.GetScriptStruct, ar.pos + TYPEREF_SIZE⟩ := by
    rw [writeBytes_append ar _ h, hRlen]
  have h2 : writeBytes ⟨ar.mem ++ encodeTypeRef self1.GetScriptStruct, ar.pos + TYPEREF_SIZE⟩
        (encodeInt32 0) =
      ⟨ar.mem ++ encodeTypeRef self1.GetScriptStruct ++ encodeInt32 0,
        ar.pos + TYPEREF_SIZE + 4⟩ := by
    rw [writeBytes_append _ _ (by simp only [List.length_append, h, hRlen]),
      encodeInt32_length]
  have h3 : writeBytes
        ⟨ar.mem ++ encodeTypeRef self1.GetScriptStruct ++ encodeInt32 0,
          ar.pos + TYPEREF_SIZE + 4⟩ (payloadBytes self1) =
      ⟨ar.mem ++ encodeTypeRef self1.GetScriptStruct ++ encodeInt32 0 ++ payloadBytes self1,
        ar.pos + TYPEREF_SIZE + 4 + (payloadBytes self1).length⟩ := by
    rw [writeBytes_append _ _
      (by simp only [List.length_append, h, hRlen, encodeInt32_length])]
  have hm0 : ar.pos + TYPEREF_SIZE = (ar.mem ++ encodeTypeRef self1.GetScriptStruct).length := by
    simp only [List.length_append, h, hRlen]
  have h4 : writeBytes
        ⟨ar.mem ++ encodeTypeRef self1.GetScriptStruct ++ encodeInt32 0 ++ payloadBytes self1,
          ar.pos + TYPEREF_SIZE⟩ (encodeInt32 ((payloadBytes self1).length : Int)) =
      ⟨ar.mem ++ encodeTypeRef self1.GetScriptStruct
          ++ encodeInt32 ((payloadBytes self1).length : Int) ++ payloadBytes self1,
        ar.pos + TYPEREF_SIZE + 4⟩ := by
    rw [hm0]
    rw [writeBytes_patch (ar.mem ++ encodeTypeRef self1.GetScriptStruct) (encodeInt32 0)
      (payloadBytes self1) (encodeInt32 ((payloadBytes self1).length : Int))
      (by rw [encodeInt32_length, encodeInt32_length]), encodeInt32_length]
  have hser : ((ar.pos + TYPEREF_SIZE + 4 + (payloadBytes self1).length : Nat) : Int)
      - ((ar.pos + TYPEREF_SIZE + 4 : Nat) : Int) = ((payloadBytes self1).length : Int) := by
    push_cast
    ring
  unfold serializeSaveFrame
  rw [h1]
  simp only
  rw [h2]
  simp only
  rw [h3]
  simp only [hser, seekAr]
  rw [h4]

/-- C5: saving writes, in order, the descriptor reference, a 4-byte length
placeholder (written as 0), and the payload; the placeholder is then patched
in place with the payload byte count — which equals (position after payload)
− (position of placeholder) − 4 — and the cursor is restored to the end of
the payload. -/
theorem serializeSave_frame_spec (self : FVariadicStruct) (ar : Archive)
    (h : ar.pos = ar.mem.length) :
    (Serialize_save self ar none).1 = self ∧
    (Serialize_save self ar none).2.1 =
      ⟨ar.mem ++ encodeTypeRef self.GetScriptStruct
          ++ encodeInt32 ((payloadBytes self).length : Int) ++ payloadBytes self,
        ar.pos + TYPEREF_SIZE + 4 + (payloadBytes self).length⟩ ∧
    (payloadBytes self).length =
      (ar.pos + TYPEREF_SIZE + 4 + (payloadBytes self).length)
        - (ar.pos + TYPEREF_SIZE) - 4 := by
  refine ⟨rfl, ?_, by omega⟩
  show serializeSaveFrame self ar = _
  exact serializeSaveFrame_spec self ar h

theorem serializeSave_frame_spec_witness :
    (Archive.mk [] 0).pos = (Archive.mk [] 0).mem.length ∧
    (Serialize_save ⟨some (⟨2, 8, 8, 3, 0, [2]⟩, 5)⟩ ⟨[], 0⟩ none).2.1 =
      ⟨[] ++ encodeTypeRef (some ⟨2, 8, 8, 3, 0, [2]⟩) ++ encodeInt32 (3 : Int)
          ++ encodePayload 3 5, 0 + TYPEREF_SIZE + 4 + 3⟩ := by
  have h := serializeSave_frame_spec ⟨some (⟨2, 8, 8, 3, 0, [2]⟩, 5)⟩ ⟨[], 0⟩ rfl
  exact ⟨rfl, h.2.1⟩

/-- C10: saving with a defaults view whose type differs from the container's
current type first re-initializes the container itself from the defaults'
type and value (the container is mutated by the save), and the frame written
names the defaults' type, not the container's prior type. -/
theorem serializeSave_defaults_mutates (self : FVariadicStruct) (ar : Archive)
    (d : FConstStructView) (h : ar.pos = ar.mem.length)
    (hmis : d.viewStruct ≠ self.GetScriptStruct) :
    (Serialize_save self ar (some d)).1 = self.InitializeAs d.viewStruct d.viewMemory ∧
    (Serialize_save self ar (some d)).1.GetScriptStruct = d.viewStruct ∧
    (Serialize_save self ar (some d)).1 ≠ self ∧
    (Serialize_save self ar (some d)).2.1 =
      ⟨ar.mem ++ encodeTypeRef d.viewStruct
          ++ encodeInt32
              ((payloadBytes (self.InitializeAs d.viewStruct d.viewMemory)).length : Int)
          ++ payloadBytes (self.InitializeAs d.viewStruct d.viewMemory),
        ar.pos + TYPEREF_SIZE + 4
          + (payloadBytes (self.InitializeAs d.viewStruct d.viewMemory)).length⟩ := by
  have hsr : Serialize_save self ar (some d) =
      (self.InitializeAs d.viewStruct d.viewMemory,
        serializeSaveFrame (self.InitializeAs d.viewStruct d.viewMemory) ar, true) := by
    unfold Serialize_save
    simp only [if_pos hmis]
  have hgs : (self.InitializeAs d.viewStruct d.viewMemory).GetScriptStruct = d.viewStruct :=
    getScriptStruct_initializeAs self d.viewStruct d.viewMemory
  refine ⟨by rw [hsr], by rw [hsr]; exact hgs, ?_, ?_⟩
  · rw [hsr]
    intro heq
    have heq2 : self.InitializeAs d.viewStruct d.viewMemory = self := heq
    apply hmis
    rw [← hgs, heq2]
  · rw [hsr]
    show serializeSaveFrame _ ar = _
    rw [serializeSaveFrame_spec _ ar h, hgs]

theorem serializeSave_defaults_mutates_witness :
    (FConstStructView.mk (some ⟨6, 8, 8, 2, 1, [6]⟩) (some 9)).viewStruct ≠
      (FVariadicStruct.mk (some (⟨2, 8, 8, 3, 0, [2]⟩, 5))).GetScriptStruct ∧
    (Serialize_save ⟨some (⟨2, 8, 8, 3, 0, [2]⟩, 5)⟩ ⟨[], 0⟩
        (some ⟨some ⟨6, 8, 8, 2, 1, [6]⟩, some 9⟩)).1.GetScriptStruct =
      some ⟨6, 8, 8, 2, 1, [6]⟩ ∧
    (Serialize_save ⟨some (⟨2, 8, 8, 3, 0, [2]⟩, 5)⟩ ⟨[], 0⟩
        (some ⟨some ⟨6, 8, 8, 2, 1, [6]⟩, some 9⟩)).1 ≠
      FVariadicStruct.mk (some (⟨2, 8, 8, 3, 0, [2]⟩, 5)) := by
  have hmis : (FConstStructView.mk (some ⟨6, 8, 8, 2, 1, [6]⟩) (some 9)).viewStruct ≠
      (FVariadicStruct.mk (some (⟨2, 8, 8, 3, 0, [2]⟩, 5))).GetScriptStruct := by decide
  have h := serializeSave_defaults_mutates ⟨some (⟨2, 8, 8, 3, 0, [2]⟩, 5)⟩ ⟨[], 0⟩
    ⟨some ⟨6, 8, 8, 2, 1, [6]⟩, some 9⟩ rfl hmis
  exact ⟨hmis, h.2.1, h.2.2.1⟩

theorem getScriptStruct_none_eq (self : FVariadicStruct) (h : self.GetScriptStruct = none) :
    self = ⟨none⟩ := by
  cases hv : self.value with
  | none => cases self; cases hv; rfl
  | some p =>
      exfalso
      unfold FVariadicStruct.GetScriptStruct at h
      rw [hv] at h
      simp at h

theorem initializeAs_of_ne (self : FVariadicStruct) (t : UScriptStruct) (src : Option Nat)
    (h : self.GetScriptStruct ≠ some t) :
    self.InitializeAs (some t) src = ⟨some (t, src.getD t.defaultValue)⟩ := by
  unfold FVariadicStruct.InitializeAs
  match hv : self.value with
  | some (s, w) =>
      have hts : ¬ t = s := by
        intro he
        apply h
        unfold FVariadicStruct.GetScriptStruct
        rw [hv, he]
        rfl
      simp [hts, constructFresh]
  | none => simp [constructFresh]

theorem serializeLoad_steps (self : FVariadicStruct) (registry : List UScriptStruct)
    (mem : List Nat) (p : Nat) (refBytes szBytes post : List Nat)
    (h0 : mem.drop p = refBytes ++ (szBytes ++ post))
    (href : refBytes.length = TYPEREF_SIZE) (hsz : szBytes.length = 4) :
    Serialize_load self ⟨mem, p⟩ registry none =
      serializeLoadBody self ⟨mem, p + TYPEREF_SIZE + 4⟩
        (resolveTypeRef registry refBytes) (decodeInt32 szBytes) none false := by
  have h1 := readBytes_at mem p TYPEREF_SIZE refBytes (szBytes ++ post) h0 href
  have h0b := drop_shift mem refBytes (szBytes ++ post) p TYPEREF_SIZE h0 href
  have h2 := readBytes_at mem (p + TYPEREF_SIZE) 4 szBytes post h0b hsz
  simp only [Serialize_load, h1, h2]

theorem serializeLoadBody_unresolved (self : FVariadicStruct) (ar : Archive) (sz : Int)
    (hsz : 0 < sz) :
    serializeLoadBody self ar none sz none false =
      (⟨none⟩, seekAr ar ((ar.pos : Int) + sz).toNat, true,
        [SerializeLog.unresolvedTypeSkip]) := by
  unfold serializeLoadBody
  by_cases h : self.GetScriptStruct = none
  · have hself := getScriptStruct_none_eq self h
    subst hself
    simp [FVariadicStruct.GetScriptStruct, hsz]
  · simp [h, initializeAs_none, hsz]

theorem serializeLoadBody_resolved (self : FVariadicStruct) (mem : List Nat) (p : Nat)
    (s : UScriptStruct) (sz : Int) (pb post : List Nat)
    (hsplit : mem.drop p = pb ++ post) (hpb : pb.length = s.serialSize) :
    serializeLoadBody self ⟨mem, p⟩ (some s) sz none false =
      (⟨some (s, decodePayload pb)⟩, ⟨mem, p + s.serialSize⟩, true, []) := by
  have hr := readBytes_at mem p s.serialSize pb post hsplit hpb
  unfold serializeLoadBody
  by_cases h : self.GetScriptStruct = some s
  · obtain ⟨w, hw⟩ : ∃ w, self.value = some (s, w) := by
      unfold FVariadicStruct.GetScriptStruct at h
      match hv : self.value with
      | some (t, w) =>
          rw [hv] at h
          simp at h
          exact ⟨w, by rw [h]⟩
      | none => rw [hv] at h; simp at h
    simp [h, hw, hr]
  · simp [h, hr, initializeAs_of_ne self s none h]

/-- C6: on load, when a defaults view is supplied whose type differs from the
type just read from the stream, the container is re-initialized from the
defaults' type and value, exactly the recorded payload length is skipped (the
stream content never touches the container), the diagnostic is logged, and
the read reports success. -/
theorem serializeLoad_defaults_mismatch_spec (self : FVariadicStruct)
    (registry : List UScriptStruct) (d : FConstStructView)
    (pre refBytes rest : List Nat) (serSize : Nat)
    (href : refBytes.length = TYPEREF_SIZE)
    (hmis : d.viewStruct ≠ resolveTypeRef registry refBytes)
    (hsz : serSize < 2 ^ 31) :
    Serialize_load self ⟨pre ++ refBytes ++ encodeInt32 (serSize : Int) ++ rest, pre.length⟩
        registry (some d) =
      (self.InitializeAs d.viewStruct d.viewMemory,
        ⟨pre ++ refBytes ++ encodeInt32 (serSize : Int) ++ rest,
          pre.length + TYPEREF_SIZE + 4 + serSize⟩,
        true, [SerializeLog.defaultsMismatch]) ∧
    (self.InitializeAs d.viewStruct d.viewMemory).GetScriptStruct = d.viewStruct := by
  have h0 : (pre ++ refBytes ++ encodeInt32 (serSize : Int) ++ rest).drop pre.length =
      refBytes ++ (encodeInt32 (serSize : Int) ++ rest) := by
    rw [List.append_assoc, List.append_assoc]
    exact List.drop_left pre _
  have h1 := readBytes_at _ pre.length TYPEREF_SIZE refBytes
    (encodeInt32 (serSize : Int) ++ rest) h0 href
  have h0b := drop_shift _ refBytes (encodeInt32 (serSize : Int) ++ rest)
    pre.length TYPEREF_SIZE h0 href
  have h2 := readBytes_at _ (pre.length + TYPEREF_SIZE) 4 (encodeInt32 (serSize : Int)) rest
    h0b (encodeInt32_length _)
  have hdec := decodeInt32_encodeInt32_ofNat serSize hsz
  have hseek : (((pre.length + TYPEREF_SIZE + 4 : Nat) : Int) + (serSize : Int)).toNat =
      pre.length + TYPEREF_SIZE + 4 + serSize := by omega
  refine ⟨?_, getScriptStruct_initializeAs self d.viewStruct d.viewMemory⟩
  simp only [Serialize_load, h1, h2, hdec]
  rw [if_pos hmis]
  simp only [seekAr, hseek]

theorem serializeLoad_defaults_mismatch_spec_witness :
    (FConstStructView.mk (some ⟨6, 8, 8, 2, 1, [6]⟩) (some 9)).viewStruct ≠
      resolveTypeRef [] (encodePayload 8 1) ∧
    (Serialize_load ⟨none⟩
        ⟨encodePayload 8 1 ++ encodeInt32 ((5 : Nat) : Int) ++ [0, 0, 0, 0, 0], 0⟩
        [] (some ⟨some ⟨6, 8, 8, 2, 1, [6]⟩, some 9⟩)).1.value =
      some (⟨6, 8, 8, 2, 1, [6]⟩, 9) ∧
    (Serialize_load ⟨none⟩
        ⟨encodePayload 8 1 ++ encodeInt32 ((5 : Nat) : Int) ++ [0, 0, 0, 0, 0], 0⟩
        [] (some ⟨some ⟨6, 8, 8, 2, 1, [6]⟩, some 9⟩)).2.1.pos = 17 := by
  have hmis : (FConstStructView.mk (some ⟨6, 8, 8, 2, 1, [6]⟩) (some 9)).viewStruct ≠
      resolveTypeRef [] (encodePayload 8 1) := by decide
  have h := serializeLoad_defaults_mismatch_spec ⟨none⟩ []
    ⟨some ⟨6, 8, 8, 2, 1, [6]⟩, some 9⟩ [] (encodePayload 8 1) [0, 0, 0, 0, 0] 5
    (encodePayload_length _ _) hmis (by norm_num)
  have h1 := h.1
  simp only [List.nil_append, List.length_nil] at h1
  refine ⟨hmis, ?_, ?_⟩
  · rw [h1]
    decide
  · rw [h1]
    decide

/-- C4 counterexample: a record whose type reference does not resolve (id 1
reference against an empty registry) and whose recorded length is 0 is read
without emitting any warning — the code warns only when `SerialSize > 0` —
while the container is left empty and the cursor still ends at the start of
the next record.  So "skips, leaves empty, and emits a warning" is not true of
every unresolvable record. -/
theorem serializeLoad_zeroLength_noWarning :
    resolveTypeRef [] (encodePayload 8 1) = none ∧
    Serialize_load ⟨none⟩ ⟨encodePayload 8 1 ++ encodeInt32 0, 0⟩ [] none =
      (⟨none⟩, ⟨encodePayload 8 1 ++ encodeInt32 0, 12⟩, true, []) := by
  constructor
  · decide
  · decide

/-- C4 amended: a stream `[unresolvable ref][length ls > 0][ls junk bytes]`
followed by a valid record is handled by skipping exactly `ls` bytes, leaving
the container empty, emitting the warning, and landing exactly at the start
of the next record, which then loads the correct type and value.  (When the
recorded length is 0 the same holds except that no warning is emitted.) -/
theorem serializeLoad_skip_unresolved_spec
    (self : FVariadicStruct) (registry : List UScriptStruct)
    (mem pre refBytes junk post : List Nat) (ls : Nat) (s : UScriptStruct) (v : Nat)
    (hm : mem = pre ++ refBytes ++ encodeInt32 (ls : Int) ++ junk
        ++ encodeTypeRef (some s) ++ encodeInt32 (s.serialSize : Int)
        ++ encodePayload s.serialSize v ++ post)
    (href : refBytes.length = TYPEREF_SIZE)
    (hres : resolveTypeRef registry refBytes = none)
    (hjunk : junk.length = ls) (hpos : 0 < ls) (hls : ls < 2 ^ 31)
    (hid : s.id + 1 < 256 ^ TYPEREF_SIZE)
    (hreg : registry.find? (fun x => x.id + 1 == s.id + 1) = some s)
    (hv : v < 256 ^ s.serialSize) :
    Serialize_load self ⟨mem, pre.length⟩ registry none =
      (⟨none⟩, ⟨mem, pre.length + TYPEREF_SIZE + 4 + ls⟩, true,
        [SerializeLog.unresolvedTypeSkip]) ∧
    Serialize_load ⟨none⟩ ⟨mem, pre.length + TYPEREF_SIZE + 4 + ls⟩ registry none =
      (⟨some (s, v)⟩,
        ⟨mem, pre.length + TYPEREF_SIZE + 4 + ls + TYPEREF_SIZE + 4 + s.serialSize⟩,
        true, []) := by
  have d0 : mem.drop pre.length =
      refBytes ++ (encodeInt32 (ls : Int) ++ (junk ++ (encodeTypeRef (some s) ++
        (encodeInt32 (s.serialSize : Int) ++ (encodePayload s.serialSize v ++ post))))) := by
    subst hm
    simp only [List.append_assoc]
    exact List.drop_left pre _
  have d1 := drop_shift mem refBytes _ pre.length TYPEREF_SIZE d0 href
  have d2 := drop_shift mem (encodeInt32 (ls : Int)) _ (pre.length + TYPEREF_SIZE) 4 d1
    (encodeInt32_length _)
  have d3 := drop_shift mem junk _ (pre.length + TYPEREF_SIZE + 4) ls d2 hjunk
  have d4 := drop_shift mem (encodeTypeRef (some s)) _ (pre.length + TYPEREF_SIZE + 4 + ls)
    TYPEREF_SIZE d3 (encodeTypeRef_length _)
  have d5 := drop_shift mem (encodeInt32 (s.serialSize : Int)) _
    (pre.length + TYPEREF_SIZE + 4 + ls + TYPEREF_SIZE) 4 d4 (encodeInt32_length _)
  constructor
  · rw [serializeLoad_steps self registry mem pre.length refBytes (encodeInt32 (ls : Int)) _
      d0 href (encodeInt32_length _)]
    rw [hres, decodeInt32_encodeInt32_ofNat ls hls]
    rw [serializeLoadBody_unresolved self _ (ls : Int) (by exact_mod_cast hpos)]
    have hq : (((pre.length + TYPEREF_SIZE + 4 : Nat) : Int) + (ls : Int)).toNat =
        pre.length + TYPEREF_SIZE + 4 + ls := by omega
    simp only [seekAr, hq]
  · rw [serializeLoad_steps ⟨none⟩ registry mem (pre.length + TYPEREF_SIZE + 4 + ls)
      (encodeTypeRef (some s)) (encodeInt32 (s.serialSize : Int)) _ d3
      (encodeTypeRef_length _) (encodeInt32_length _)]
    rw [resolveTypeRef_some registry s hid hreg]
    rw [serializeLoadBody_resolved ⟨none⟩ mem
      (pre.length + TYPEREF_SIZE + 4 + ls + TYPEREF_SIZE + 4) s _
      (encodePayload s.serialSize v) post d5 (encodePayload_length _ _)]
    rw [decodePayload_encodePayload_of_lt _ _ hv]

theorem serializeLoad_skip_unresolved_spec_witness :
    resolveTypeRef [⟨0, 8, 8, 2, 0, [0]⟩] (encodePayload 8 9) = none ∧
    (0 : Nat) < 3 ∧
    Serialize_load ⟨none⟩
        ⟨encodePayload 8 9 ++ encodeInt32 ((3 : Nat) : Int) ++ [7, 7, 7]
          ++ encodeTypeRef (some ⟨0, 8, 8, 2, 0, [0]⟩)
          ++ encodeInt32 ((2 : Nat) : Int) ++ encodePayload 2 40, 0⟩
        [⟨0, 8, 8, 2, 0, [0]⟩] none =
      (⟨none⟩,
        ⟨encodePayload 8 9 ++ encodeInt32 ((3 : Nat) : Int) ++ [7, 7, 7]
          ++ encodeTypeRef (some ⟨0, 8, 8, 2, 0, [0]⟩)
          ++ encodeInt32 ((2 : Nat) : Int) ++ encodePayload 2 40, 15⟩,
        true, [SerializeLog.unresolvedTypeSkip]) := by
  have h := serializeLoad_skip_unresolved_spec ⟨none⟩ [⟨0, 8, 8, 2, 0, [0]⟩]
    (encodePayload 8 9 ++ encodeInt32 ((3 : Nat) : Int) ++ [7, 7, 7]
      ++ encodeTypeRef (some ⟨0, 8, 8, 2, 0, [0]⟩)
      ++ encodeInt32 ((2 : Nat) : Int) ++ encodePayload 2 40)
    [] (encodePayload 8 9) [7, 7, 7] [] 3 ⟨0, 8, 8, 2, 0, [0]⟩ 40
    (by simp) (encodePayload_length _ _) (by decide) rfl (by norm_num) (by norm_num)
    (by norm_num [TYPEREF_SIZE]) (by decide) (by norm_num)
  refine ⟨by decide, by norm_num, ?_⟩
  have h1 := h.1
  simp only [List.length_nil, List.nil_append] at h1
  rw [show (15 : Nat) = 0 + TYPEREF_SIZE + 4 + 3 by norm_num [TYPEREF_SIZE]]
  exact h1

/-- C8 (code bug): for a record carrying the legacy `InstancedStruct` tag,
`SerializeFromMismatchedTag` first requires the archive's `FInstancedStruct`
custom version to be exactly 0 and returns false otherwise.  A "sufficiently
old" archive — one predating that custom version — reports a negative custom
version, so the reader rejects it before consuming a single byte, and the
legacy sub-header branch (guarded by `customVer < 0`, reachable only when
`customVer = 0` also holds) is dead: the magic-constant/version parsing the
claim describes never runs.  On a version-0 archive the body runs with no
legacy sub-header parsing. -/
theorem mismatchedTag_oldArchive_rejected (self : FVariadicStruct) (ar : Archive)
    (registry : List UScriptStruct) (customVer : Int) (isTextFormat : Bool)
    (hold : customVer < 0) :
    SerializeFromMismatchedTag self ar registry true customVer isTextFormat =
      (false, self, ar, []) ∧
    (∀ tf, SerializeFromMismatchedTag self ar registry true 0 tf =
      if tf then (false, self, ar, [])
      else (true, (mismatchedTagBody self ar registry).1,
        (mismatchedTagBody self ar registry).2.1,
        (mismatchedTagBody self ar registry).2.2)) := by
  constructor
  · have hne : ¬ (customVer = 0) := by omega
    unfold SerializeFromMismatchedTag
    simp [hne]
  · intro tf
    unfold SerializeFromMismatchedTag
    cases tf <;> simp

theorem mismatchedTag_oldArchive_rejected_witness :
    ((-1 : Int) < 0) ∧
    SerializeFromMismatchedTag ⟨none⟩
        ⟨encodePayload 4 LegacyEditorHeader ++ [0] ++ encodePayload 8 1 ++ encodeInt32 0, 0⟩
        [] true (-1) false =
      (false, ⟨none⟩,
        ⟨encodePayload 4 LegacyEditorHeader ++ [0] ++ encodePayload 8 1 ++ encodeInt32 0, 0⟩,
        []) := by
  exact ⟨by norm_num,
    (mismatchedTag_oldArchive_rejected ⟨none⟩
      ⟨encodePayload 4 LegacyEditorHeader ++ [0] ++ encodePayload 8 1 ++ encodeInt32 0, 0⟩
      [] (-1) false (by norm_num)).1⟩
